import Mathlib

/-!
A shallow embedding of the inpainting engine in
src/lib/watermark-remover.ts, together with theorems checking the
specification's claims against it.

Modelling conventions:
* A pixel buffer (JS Uint8ClampedArray) is a List ℚ; reads are getD with
  default 0 and writes are List.set, which is a no-op out of bounds exactly
  like a JS typed array store.  Stores go through u8 (ToUint8Clamp: round
  ties-to-even, clamp to [0,255]).
* Channel arithmetic is over ℚ (idealized exact arithmetic standing for JS
  doubles; none of the checked claims depends on double rounding).
* Coordinates and sizes are ℤ, as JS numbers holding integers.
* Math.sqrt appears only inside comparisons (d > r, d === 0, d < minDist)
  between square roots of integers; these are embedded as the equivalent
  exact integer comparisons on squared distances.
* The fill weight 1 / (1 + d * 0.3) is irrational in d; since no claim
  depends on its value, the pipeline takes an abstract weight function
  wfn dx dy in its place.
* Math.random() is an explicit stream rand : ℕ → ℚ of draws (each in
  [0,1)), consumed left to right through a counter threaded in the state.
* onProgress is a Bool flag plus a list collecting the reported values in
  order.
-/

namespace WatermarkRemover

/-- A pixel buffer: row-major, 4 rational channels (R,G,B,A) per pixel. -/
abbrev Buf := List ℚ

/-- Selection rectangle, as in src/types/index.ts. -/
structure Selection where
  x : ℤ
  y : ℤ
  width : ℤ
  height : ℤ
deriving DecidableEq, Repr

/-- An (r,g,b) texture sample, as in src/types/index.ts. -/
structure TextureSample where
  r : ℚ
  g : ℚ
  b : ℚ
deriving DecidableEq, Repr

/-- The decoded image: dimensions plus the RGBA buffer. -/
structure ImageData where
  width : ℤ
  height : ℤ
  data : Buf
deriving DecidableEq

/-- Processing options, as in src/types/index.ts (the partial-options merge
with DEFAULT_OPTIONS is modelled by always passing a full record). -/
structure ProcessingOptions where
  autoDetect : Bool
  passes : ℕ
  margin : ℤ
  grainStrength : ℚ
  textureInjectionProbability : ℚ
deriving DecidableEq, Repr

/-- Byte offset of channel c of pixel (x,y): (y*width+x)*4 + c. -/
def pixIdx (width x y c : ℤ) : ℤ := (y * width + x) * 4 + c

/-- Read a channel from a buffer (JS typed-array read; in-bounds in every
reachable read of the engine). -/
def bufGet (b : Buf) (i : ℤ) : ℚ := if 0 ≤ i then b.getD i.toNat 0 else 0

/-- Write a channel to a buffer; out-of-bounds writes are no-ops, exactly
like a JS typed-array store. -/
def bufSet (b : Buf) (i : ℤ) (v : ℚ) : Buf :=
  if 0 ≤ i then b.set i.toNat v else b

/-- JS Math.round: round half toward positive infinity. -/
def jsRound (q : ℚ) : ℤ := ⌊q + 1 / 2⌋

/-- Round to nearest, ties to even (the rounding of ToUint8Clamp). -/
def roundTiesEven (q : ℚ) : ℤ :=
  if q - ⌊q⌋ < 1 / 2 then ⌊q⌋
  else if 1 / 2 < q - ⌊q⌋ then ⌊q⌋ + 1
  else if Even ⌊q⌋ then ⌊q⌋ else ⌊q⌋ + 1

/-- ToUint8Clamp: the value actually stored by a Uint8ClampedArray
assignment. -/
def u8 (q : ℚ) : ℚ := ((max 0 (min 255 (roundTiesEven q)) : ℤ) : ℚ)

/-- Store a channel value through the clamped-byte conversion. -/
def setPix (b : Buf) (i : ℤ) (v : ℚ) : Buf := bufSet b i (u8 v)

/-- The integers a, a+1, ..., b-1 (empty when b ≤ a). -/
def intRange (a b : ℤ) : List ℤ :=
  (List.range (b - a).toNat).map (fun i : ℕ => a + (i : ℤ))

/-- Row-major scan of a half-open box: y runs over [minY, maxY) in the
outer loop, x over [minX, maxX) in the inner loop; elements are (x, y). -/
def boxList (minX maxX minY maxY : ℤ) : List (ℤ × ℤ) :=
  (intRange minY maxY).flatMap (fun y => (intRange minX maxX).map (fun x => (x, y)))

/-- isInsideSelection from the source: a strict box-membership test. -/
def isInsideSelection (x y : ℤ) (sel : Selection) : Bool :=
  decide (sel.x ≤ x ∧ x < sel.x + sel.width ∧ sel.y ≤ y ∧ y < sel.y + sel.height)

/-- autoDetectWatermark from the source: fixed positional guess at the
bottom-right corner. -/
def autoDetectWatermark (width height : ℤ) : Selection :=
  ⟨max 0 (width - 200), max 0 (height - 80), min 180 width, min 60 height⟩

/-- The selection-clamping step at the top of inpaintWatermark.  Note the
width/height rows use the caller's unclamped selection.x / selection.y. -/
def clampSelection (selection : Selection) (width height : ℤ) : Selection :=
  ⟨max 0 (min selection.x (width - 1)),
   max 0 (min selection.y (height - 1)),
   min selection.width (width - selection.x),
   min selection.height (height - selection.y)⟩

/-- buildTextureBank from the source: scan the selection's bounding box
expanded by margin and clipped to the image, pushing the (r,g,b) of every
scanned pixel that is outside the selection. -/
def buildTextureBank (imageData : ImageData) (selection : Selection)
    (margin : ℤ) : List TextureSample :=
  let minX := max 0 (selection.x - margin)
  let maxX := min imageData.width (selection.x + selection.width + margin)
  let minY := max 0 (selection.y - margin)
  let maxY := min imageData.height (selection.y + selection.height + margin)
  (boxList minX maxX minY maxY).foldl
    (fun bank p =>
      if p.1 < selection.x ∨ p.1 ≥ selection.x + selection.width ∨
          p.2 < selection.y ∨ p.2 ≥ selection.y + selection.height then
        bank ++ [⟨bufGet imageData.data (pixIdx imageData.width p.1 p.2 0),
                  bufGet imageData.data (pixIdx imageData.width p.1 p.2 1),
                  bufGet imageData.data (pixIdx imageData.width p.1 p.2 2)⟩]
      else bank)
    []

/-- Membership in intRange is the interval condition. -/
lemma mem_intRange {a b x : ℤ} : x ∈ intRange a b ↔ a ≤ x ∧ x < b := by
  unfold intRange
  rw [List.mem_map]
  constructor
  · rintro ⟨i, hi, rfl⟩
    rw [List.mem_range] at hi
    omega
  · rintro ⟨h1, h2⟩
    refine ⟨(x - a).toNat, ?_, ?_⟩
    · rw [List.mem_range]; omega
    · omega

/-- Membership in boxList is the box condition. -/
lemma mem_boxList {minX maxX minY maxY : ℤ} {p : ℤ × ℤ} :
    p ∈ boxList minX maxX minY maxY ↔
      minX ≤ p.1 ∧ p.1 < maxX ∧ minY ≤ p.2 ∧ p.2 < maxY := by
  obtain ⟨px, py⟩ := p
  simp only [boxList, List.mem_flatMap, List.mem_map, mem_intRange, Prod.mk.injEq]
  constructor
  · rintro ⟨y, hy, x, hx, rfl, rfl⟩
    exact ⟨hx.1, hx.2, hy.1, hy.2⟩
  · rintro ⟨h1, h2, h3, h4⟩
    exact ⟨py, ⟨h3, h4⟩, px, ⟨h1, h2⟩, rfl, rfl⟩

/-- A predicate preserved by every step of a fold is preserved by the
fold. -/
lemma foldl_preserve {α β : Type} (P : α → Prop) (f : α → β → α) :
    ∀ (l : List β) (a : α), (∀ x b, b ∈ l → P x → P (f x b)) → P a →
      P (l.foldl f a) := by
  intro l
  induction l with
  | nil => intro a _ ha; exact ha
  | cons b t ih =>
      intro a h ha
      exact ih (f a b) (fun x c hc hx => h x c (List.mem_cons_of_mem b hc) hx)
        (h a b (List.mem_cons_self b t) ha)

/-- Two folds with step functions that agree on the list's elements are
equal. -/
lemma foldl_ext {α β : Type} (f g : α → β → α) :
    ∀ (l : List β) (a : α), (∀ x b, b ∈ l → f x b = g x b) →
      l.foldl f a = l.foldl g a := by
  intro l
  induction l with
  | nil => intro a _; rfl
  | cons b t ih =>
      intro a h
      simp only [List.foldl_cons]
      rw [h a b (List.mem_cons_self b t)]
      exact ih (g a b) (fun x c hc => h x c (List.mem_cons_of_mem b hc))

/-- A conditional-append fold is the filter-then-map of the list. -/
lemma foldl_append_filter {β γ : Type} (p : β → Bool) (f : β → γ) :
    ∀ (l : List β) (acc : List γ),
      l.foldl (fun a b => if p b then a ++ [f b] else a) acc =
        acc ++ (l.filter p).map f := by
  intro l
  induction l with
  | nil => intro acc; simp
  | cons b t ih =>
      intro acc
      by_cases hb : p b
      · simp [List.filter_cons, hb, ih]
      · simp [List.filter_cons, hb, ih]

/-- Accumulator of the neighbor-gathering loop in the fill stage. -/
structure GatherAcc where
  sumR : ℚ
  sumG : ℚ
  sumB : ℚ
  totalWeight : ℚ
deriving DecidableEq, Repr

/-- The distance-field value of local coordinate (lx,ly): the minimum of
the distances to the four selection edges (the distMap entry; the values
are small integers, exact in the source's Float32Array). -/
def distAt (sel : Selection) (lx ly : ℤ) : ℤ :=
  min (min lx (sel.width - 1 - lx)) (min ly (sel.height - 1 - ly))

/-- maxDist: the running maximum of the distance map, initial value 0,
accumulated in the same row-major loop that fills distMap. -/
def maxDistOf (sel : Selection) : ℤ :=
  (boxList 0 sel.width 0 sel.height).foldl
    (fun m p => max m (distAt sel p.1 p.2)) 0

/-- The (dx,dy) offsets of a square window scan: dy in the outer loop, dx
in the inner loop, both from -r to r inclusive. -/
def windowOffsets (r : ℤ) : List (ℤ × ℤ) := boxList (-r) (r + 1) (-r) (r + 1)

/-- One step of the neighbor-gathering loop of the fill stage, for offset
(dx,dy) around (x,y).  The source's guards d > sampleRadius and d === 0 on
d = sqrt(dx²+dy²) are embedded as the equivalent exact integer comparisons
on squares; wfn dx dy stands for the weight 1 / (1 + d*0.3). -/
def gatherStep (orig res : Buf) (width height : ℤ) (sel : Selection)
    (layer sampleRadius : ℤ) (wfn : ℤ → ℤ → ℚ) (x y : ℤ)
    (acc : GatherAcc) (d : ℤ × ℤ) : GatherAcc :=
  let sx := x + d.1
  let sy := y + d.2
  if sx < 0 ∨ sx ≥ width ∨ sy < 0 ∨ sy ≥ height then acc
  else if d.1 * d.1 + d.2 * d.2 > sampleRadius * sampleRadius ∨
      (d.1 = 0 ∧ d.2 = 0) then acc
  else
    let isOutside := !isInsideSelection sx sy sel
    let sampleDist : ℤ :=
      if isOutside then -1 else distAt sel (sx - sel.x) (sy - sel.y)
    if isOutside = false ∧ sampleDist ≥ layer then acc
    else
      let weight := wfn d.1 d.2
      let idx := pixIdx width sx sy 0
      let source := if isOutside then orig else res
      ⟨acc.sumR + bufGet source idx * weight,
       acc.sumG + bufGet source (idx + 1) * weight,
       acc.sumB + bufGet source (idx + 2) * weight,
       acc.totalWeight + weight⟩

/-- The neighbor-gathering loop of the fill stage. -/
def gatherNeighbors (orig res : Buf) (width height : ℤ) (sel : Selection)
    (layer sampleRadius : ℤ) (wfn : ℤ → ℤ → ℚ) (x y : ℤ) : GatherAcc :=
  (windowOffsets sampleRadius).foldl
    (gatherStep orig res width height sel layer sampleRadius wfn x y)
    ⟨0, 0, 0, 0⟩

/-- One random texture-bank injection: index floor(u * bank.length),
fixed weight 0.1 (u is a Math.random draw, in [0,1)). -/
def injectSample (bank : List TextureSample) (u : ℚ) (acc : GatherAcc) :
    GatherAcc :=
  let sample := bank.getD (⌊u * (bank.length : ℚ)⌋).toNat ⟨0, 0, 0⟩
  ⟨acc.sumR + sample.r * (1 / 10),
   acc.sumG + sample.g * (1 / 10),
   acc.sumB + sample.b * (1 / 10),
   acc.totalWeight + 1 / 10⟩

/-- Processing of one fill-front pixel: gather neighbors within radius
min(10, margin), add two random texture samples, and if the total weight
is positive store the rounded weighted means of the three RGB channels. -/
def fillPixel (orig res : Buf) (bank : List TextureSample)
    (width height : ℤ) (sel : Selection) (margin : ℤ)
    (wfn : ℤ → ℤ → ℚ) (layer x y : ℤ) (u1 u2 : ℚ) : Buf :=
  let sampleRadius := min 10 margin
  let acc0 := gatherNeighbors orig res width height sel layer sampleRadius wfn x y
  let acc := injectSample bank u2 (injectSample bank u1 acc0)
  if acc.totalWeight > 0 then
    let idx := pixIdx width x y 0
    setPix (setPix (setPix res idx
          ((jsRound (acc.sumR / acc.totalWeight) : ℤ) : ℚ))
        (idx + 1) ((jsRound (acc.sumG / acc.totalWeight) : ℤ) : ℚ))
      (idx + 2) ((jsRound (acc.sumB / acc.totalWeight) : ℤ) : ℚ)
  else res

/-- The state threaded through the pipeline: the working buffer, the
number of Math.random draws consumed so far, and the progress values
reported so far (in report order). -/
structure PipeState where
  buf : Buf
  draws : ℕ
  prog : List ℚ
deriving DecidableEq

/-- One layer of the progressive fill: scan the selection's local
coordinates row-major and process the pixels whose distance-map value
equals the layer (each consuming two random draws). -/
def fillLayer (orig : Buf) (bank : List TextureSample) (width height : ℤ)
    (sel : Selection) (margin : ℤ) (wfn : ℤ → ℤ → ℚ) (rand : ℕ → ℚ)
    (layer : ℤ) (st : PipeState) : PipeState :=
  (boxList 0 sel.width 0 sel.height).foldl
    (fun st p =>
      if distAt sel p.1 p.2 ≠ layer then st
      else
        let x := sel.x + p.1
        let y := sel.y + p.2
        if x < 0 ∨ x ≥ width ∨ y < 0 ∨ y ≥ height then st
        else
          ⟨fillPixel orig st.buf bank width height sel margin wfn layer x y
              (rand st.draws) (rand (st.draws + 1)),
            st.draws + 2, st.prog⟩)
    st

/-- Step 2: the progressive-fill stage over layers 0..maxDist, with the
per-layer progress report 20 + (layer/maxDist)*50 guarded by
maxDist > 0.  (The cooperative yield every 3 layers has no observable
effect in the embedding.) -/
def fillStage (orig : Buf) (bank : List TextureSample) (width height : ℤ)
    (sel : Selection) (margin : ℤ) (wfn : ℤ → ℤ → ℚ) (rand : ℕ → ℚ)
    (hasProgress : Bool) (maxDist : ℤ) (st : PipeState) : PipeState :=
  (intRange 0 (maxDist + 1)).foldl
    (fun st layer =>
      let st' := fillLayer orig bank width height sel margin wfn rand layer st
      if hasProgress = true ∧ maxDist > 0 then
        { st' with
          prog := st'.prog ++ [20 + ((layer : ℚ) / (maxDist : ℚ)) * 50] }
      else st')
    st

/-- Step 1: fill the whole clamped selection with the rounded average
texture-bank color (alpha untouched). -/
def prefillStage (width height : ℤ) (sel : Selection) (avgR avgG avgB : ℤ)
    (buf : Buf) : Buf :=
  (boxList sel.x (sel.x + sel.width) sel.y (sel.y + sel.height)).foldl
    (fun buf p =>
      if 0 ≤ p.1 ∧ p.1 < width ∧ 0 ≤ p.2 ∧ p.2 < height then
        let idx := pixIdx width p.1 p.2 0
        setPix (setPix (setPix buf idx (avgR : ℚ)) (idx + 1) (avgG : ℚ))
          (idx + 2) (avgB : ℚ)
      else buf)
    buf

/-- One box-blur output pixel of the smoothing pass (radius 2), reading
from the snapshot temp. -/
def smoothPixel (temp : Buf) (width height : ℤ) (x y : ℤ) (res : Buf) :
    Buf :=
  let acc := (windowOffsets 2).foldl
    (fun (acc : ℚ × ℚ × ℚ × ℕ) d =>
      let sx := x + d.1
      let sy := y + d.2
      if sx < 0 ∨ sx ≥ width ∨ sy < 0 ∨ sy ≥ height then acc
      else
        let idx := pixIdx width sx sy 0
        (acc.1 + bufGet temp idx, acc.2.1 + bufGet temp (idx + 1),
          acc.2.2.1 + bufGet temp (idx + 2), acc.2.2.2 + 1))
    (0, 0, 0, 0)
  if acc.2.2.2 > 0 then
    let idx := pixIdx width x y 0
    setPix (setPix (setPix res idx
          ((jsRound (acc.1 / (acc.2.2.2 : ℚ)) : ℤ) : ℚ))
        (idx + 1) ((jsRound (acc.2.1 / (acc.2.2.2 : ℚ)) : ℤ) : ℚ))
      (idx + 2) ((jsRound (acc.2.2.1 / (acc.2.2.2 : ℚ)) : ℤ) : ℚ)
  else res

/-- One smoothing pass: snapshot the buffer, then box-blur every in-image
selection pixel from the snapshot. -/
def smoothPass (width height : ℤ) (sel : Selection) (res : Buf) : Buf :=
  let temp := res
  (boxList sel.x (sel.x + sel.width) sel.y (sel.y + sel.height)).foldl
    (fun res p =>
      if p.1 < 0 ∨ p.1 ≥ width ∨ p.2 < 0 ∨ p.2 ≥ height then res
      else smoothPixel temp width height p.1 p.2 res)
    res

/-- Step 3: passCount smoothing passes with their progress reports
75 + ((pass+1)/passes)*15. -/
def smoothStage (width height : ℤ) (sel : Selection) (passes : ℕ)
    (hasProgress : Bool) (st : PipeState) : PipeState :=
  (List.range passes).foldl
    (fun st pass =>
      let st' := { st with buf := smoothPass width height sel st.buf }
      if hasProgress then
        { st' with
          prog := st'.prog ++ [75 + (((pass : ℚ) + 1) / (passes : ℚ)) * 15] }
      else st')
    st

/-- One step of the nearest-exterior window scan of the feathering stage:
skip out-of-image or inside-selection pixels, otherwise keep the strictly
closest exterior pixel's original color (the float comparison d < minDist
between square roots is embedded as the exact comparison of squared
distances, with none standing for the initial Infinity). -/
def featherScanStep (orig : Buf) (width height : ℤ) (sel : Selection)
    (x y : ℤ) (acc : ℚ × ℚ × ℚ × Option ℤ) (d : ℤ × ℤ) :
    ℚ × ℚ × ℚ × Option ℤ :=
  let sx := x + d.1
  let sy := y + d.2
  if sx < 0 ∨ sx ≥ width ∨ sy < 0 ∨ sy ≥ height then acc
  else if isInsideSelection sx sy sel then acc
  else
    let dsq := d.1 * d.1 + d.2 * d.2
    let closer := match acc.2.2.2 with
      | none => true
      | some m => decide (dsq < m)
    if closer then
      let sIdx := pixIdx width sx sy 0
      (bufGet orig sIdx, bufGet orig (sIdx + 1), bufGet orig (sIdx + 2),
        some dsq)
    else acc

/-- The nearest-exterior search of the feathering stage: scan the
featherWidth window with featherScanStep; ties go to the first found in
scan order; the fallback is the pixel's own original color. -/
def featherNearest (orig : Buf) (width height : ℤ) (sel : Selection)
    (x y : ℤ) : ℚ × ℚ × ℚ :=
  let idx := pixIdx width x y 0
  let r := (windowOffsets 4).foldl (featherScanStep orig width height sel x y)
    (bufGet orig idx, bufGet orig (idx + 1), bufGet orig (idx + 2), none)
  (r.1, r.2.1, r.2.2.1)

/-- One feathered pixel: for distance-map value below featherWidth = 4,
blend the current value toward the nearest exterior color (channel writes
are sequential, as in the source). -/
def featherPixel (orig : Buf) (width height : ℤ) (sel : Selection)
    (x y : ℤ) (res : Buf) : Buf :=
  let distToEdge := distAt sel (x - sel.x) (y - sel.y)
  if distToEdge < 4 then
    let blend : ℚ := (distToEdge : ℚ) / 4
    let idx := pixIdx width x y 0
    let nearest := featherNearest orig width height sel x y
    let b0 := setPix res idx
      ((jsRound (bufGet res idx * blend + nearest.1 * (1 - blend)) : ℤ) : ℚ)
    let b1 := setPix b0 (idx + 1)
      ((jsRound (bufGet b0 (idx + 1) * blend + nearest.2.1 * (1 - blend)) : ℤ) : ℚ)
    setPix b1 (idx + 2)
      ((jsRound (bufGet b1 (idx + 2) * blend + nearest.2.2 * (1 - blend)) : ℤ) : ℚ)
  else res

/-- Step 4: the feathering stage over all in-image selection pixels. -/
def featherStage (orig : Buf) (width height : ℤ) (sel : Selection)
    (res : Buf) : Buf :=
  (boxList sel.x (sel.x + sel.width) sel.y (sel.y + sel.height)).foldl
    (fun res p =>
      if p.1 < 0 ∨ p.1 ≥ width ∨ p.2 < 0 ∨ p.2 ≥ height then res
      else featherPixel orig width height sel p.1 p.2 res)
    res

/-- One grain pixel: a single noise draw (u − 0.5) · grainStrength · 2
added to all three RGB channels, each clamped to [0,255] before the byte
store (channel writes are sequential, as in the source). -/
def grainPixel (width : ℤ) (grainStrength : ℚ) (u : ℚ) (x y : ℤ)
    (buf : Buf) : Buf :=
  let idx := pixIdx width x y 0
  let noise := (u - 1 / 2) * grainStrength * 2
  let b0 := setPix buf idx (max 0 (min 255 (bufGet buf idx + noise)))
  let b1 := setPix b0 (idx + 1) (max 0 (min 255 (bufGet b0 (idx + 1) + noise)))
  setPix b1 (idx + 2) (max 0 (min 255 (bufGet b1 (idx + 2) + noise)))

/-- Step 5: the grain stage, one random draw per in-image selection
pixel. -/
def grainStage (width height : ℤ) (sel : Selection) (grainStrength : ℚ)
    (rand : ℕ → ℚ) (st : PipeState) : PipeState :=
  (boxList sel.x (sel.x + sel.width) sel.y (sel.y + sel.height)).foldl
    (fun st p =>
      if p.1 < 0 ∨ p.1 ≥ width ∨ p.2 < 0 ∨ p.2 ≥ height then st
      else
        ⟨grainPixel width grainStrength (rand st.draws) p.1 p.2 st.buf,
          st.draws + 1, st.prog⟩)
    st

/-- The summed channels of the texture bank (the average-color loop). -/
def bankSum (bank : List TextureSample) : ℚ × ℚ × ℚ :=
  bank.foldl (fun s smp => (s.1 + smp.r, s.2.1 + smp.g, s.2.2 + smp.b))
    (0, 0, 0)

/-- The result of inpaintWatermark: the returned ImageData plus the
sequence of progress reports. -/
structure InpaintResult where
  imageData : ImageData
  prog : List ℚ
deriving DecidableEq

/-- inpaintWatermark: clamp the selection, short-circuit on a degenerate
selection or an empty texture bank, then run mean pre-fill, progressive
fill, smoothing, feathering and grain on one owned result buffer.
hasProgress models the presence of the onProgress callback, rand the
Math.random stream and wfn the irrational fill weight (see the module
comment). -/
def inpaintWatermark (imageData : ImageData) (selection : Selection)
    (opts : ProcessingOptions) (hasProgress : Bool) (rand : ℕ → ℚ)
    (wfn : ℤ → ℤ → ℚ) : InpaintResult :=
  let width := imageData.width
  let height := imageData.height
  let originalData := imageData.data
  let resultData := imageData.data
  let sel := clampSelection selection width height
  if sel.width ≤ 0 ∨ sel.height ≤ 0 then ⟨imageData, []⟩
  else
    let textureBank := buildTextureBank imageData sel opts.margin
    if textureBank.length = 0 then ⟨imageData, []⟩
    else
      let s := bankSum textureBank
      let avgR := jsRound (s.1 / (textureBank.length : ℚ))
      let avgG := jsRound (s.2.1 / (textureBank.length : ℚ))
      let avgB := jsRound (s.2.2 / (textureBank.length : ℚ))
      let res1 := prefillStage width height sel avgR avgG avgB resultData
      let st1 : PipeState := ⟨res1, 0, if hasProgress then [20] else []⟩
      let maxDist := maxDistOf sel
      let st2 := fillStage originalData textureBank width height sel
        opts.margin wfn rand hasProgress maxDist st1
      let st3 := if hasProgress then { st2 with prog := st2.prog ++ [75] }
        else st2
      let st4 := smoothStage width height sel opts.passes hasProgress st3
      let st5 := if hasProgress then { st4 with prog := st4.prog ++ [92] }
        else st4
      let st6 :=
        { st5 with buf := featherStage originalData width height sel st5.buf }
      let st7 := grainStage width height sel opts.grainStrength rand st6
      let st8 := if hasProgress then { st7 with prog := st7.prog ++ [100] }
        else st7
      ⟨⟨width, height, st8.buf⟩, st8.prog⟩

/-- Reading after a write at a different index gives the old value. -/
lemma bufGet_bufSet_ne {b : Buf} {i j : ℤ} (v : ℚ) (h : i ≠ j) :
    bufGet (bufSet b j v) i = bufGet b i := by
  unfold bufGet bufSet
  by_cases hj : 0 ≤ j
  · by_cases hi : 0 ≤ i
    · simp only [hi, hj, if_true]
      rw [List.getD_eq_getElem?_getD, List.getD_eq_getElem?_getD,
        List.getElem?_set_ne (by omega)]
    · simp [hi, hj]
  · simp [hj]

/-- Reading after a clamped store at a different index gives the old
value. -/
lemma bufGet_setPix_ne {b : Buf} {i j : ℤ} (v : ℚ) (h : i ≠ j) :
    bufGet (setPix b j v) i = bufGet b i :=
  bufGet_bufSet_ne _ h

/-- pixIdx is injective on in-image x coordinates and channels 0..3. -/
lemma pixIdx_inj {width x y c x' y' c' : ℤ}
    (hx0 : 0 ≤ x) (hx1 : x < width) (hx0' : 0 ≤ x') (hx1' : x' < width)
    (hc0 : 0 ≤ c) (hc1 : c < 4) (hc0' : 0 ≤ c') (hc1' : c' < 4)
    (h : pixIdx width x y c = pixIdx width x' y' c') :
    x = x' ∧ y = y' ∧ c = c' := by
  have h4 : (y * width + x) * 4 + c = (y' * width + x') * 4 + c' := h
  have hw : (0 : ℤ) < width := lt_of_le_of_lt hx0 hx1
  generalize hA : y * width + x = A at h4
  generalize hA' : y' * width + x' = A' at h4
  have hAc : A = A' ∧ c = c' := by omega
  have hxy : y * width + x = y' * width + x' := by rw [hA, hA']; exact hAc.1
  have e3 : x + width * y = x' + width * y' := by
    calc x + width * y = y * width + x := by ring
      _ = y' * width + x' := hxy
      _ = x' + width * y' := by ring
  have e1 : (x + width * y) % width = x % width :=
    Int.add_mul_emod_self_left x width y
  have e2 : (x' + width * y') % width = x' % width :=
    Int.add_mul_emod_self_left x' width y'
  rw [e3, e2] at e1
  rw [Int.emod_eq_of_lt hx0' hx1', Int.emod_eq_of_lt hx0 hx1] at e1
  have ex : x = x' := e1.symm
  refine ⟨ex, ?_, hAc.2⟩
  have hyw : y * width = y' * width := by omega
  exact mul_right_cancel₀ (ne_of_gt hw) hyw

/-- The explicit outside-the-selection test in buildTextureBank agrees with
the negation of isInsideSelection. -/
lemma outside_iff_not_inside (x y : ℤ) (sel : Selection) :
    (x < sel.x ∨ x ≥ sel.x + sel.width ∨ y < sel.y ∨ y ≥ sel.y + sel.height) ↔
      (!isInsideSelection x y sel) = true := by
  simp only [isInsideSelection, Bool.not_eq_true', decide_eq_false_iff_not]
  omega

/-- Channel c of pixel (x,y) at channel offset c from the pixel base. -/
lemma pixIdx_zero_add (width x y c : ℤ) :
    pixIdx width x y 0 + c = pixIdx width x y c := by
  unfold pixIdx; ring

/-- Index i avoids every channel the pipeline writes: channels 0..2 of
in-image pixels inside the clamped selection. -/
def untouched (width height : ℤ) (sel : Selection) (i : ℤ) : Prop :=
  ∀ x y c : ℤ, 0 ≤ x → x < width → 0 ≤ y → y < height →
    isInsideSelection x y sel = true → 0 ≤ c → c < 3 →
    i ≠ pixIdx width x y c

lemma untouched_ne {width height : ℤ} {sel : Selection} {i x y c : ℤ}
    (hu : untouched width height sel i)
    (hx0 : 0 ≤ x) (hx1 : x < width) (hy0 : 0 ≤ y) (hy1 : y < height)
    (hin : isInsideSelection x y sel = true) (hc0 : 0 ≤ c) (hc1 : c < 3) :
    i ≠ pixIdx width x y 0 + c := by
  rw [pixIdx_zero_add]
  exact hu x y c hx0 hx1 hy0 hy1 hin hc0 hc1

/-- A triple channel write at an in-image selection pixel does not change
an untouched index. -/
lemma bufGet_write3 {width height : ℤ} {sel : Selection} {i x y : ℤ}
    (hu : untouched width height sel i)
    (hx0 : 0 ≤ x) (hx1 : x < width) (hy0 : 0 ≤ y) (hy1 : y < height)
    (hin : isInsideSelection x y sel = true)
    (b : Buf) (v0 v1 v2 : ℚ) :
    bufGet (setPix (setPix (setPix b (pixIdx width x y 0) v0)
        (pixIdx width x y 0 + 1) v1) (pixIdx width x y 0 + 2) v2) i
      = bufGet b i := by
  rw [bufGet_setPix_ne _
      (untouched_ne hu hx0 hx1 hy0 hy1 hin (by omega) (by omega)),
    bufGet_setPix_ne _
      (untouched_ne hu hx0 hx1 hy0 hy1 hin (by omega) (by omega)),
    bufGet_setPix_ne _ (hu x y 0 hx0 hx1 hy0 hy1 hin (by omega) (by omega))]

lemma inside_of_local {sel : Selection} {lx ly : ℤ}
    (h1 : 0 ≤ lx) (h2 : lx < sel.width) (h3 : 0 ≤ ly) (h4 : ly < sel.height) :
    isInsideSelection (sel.x + lx) (sel.y + ly) sel = true := by
  simp only [isInsideSelection, decide_eq_true_eq]
  omega

lemma inside_of_mem_selBox {sel : Selection} {p : ℤ × ℤ}
    (hp : p ∈ boxList sel.x (sel.x + sel.width) sel.y (sel.y + sel.height)) :
    isInsideSelection p.1 p.2 sel = true := by
  rw [mem_boxList] at hp
  simp only [isInsideSelection, decide_eq_true_eq]
  omega

lemma fillPixel_frame {width height : ℤ} {sel : Selection} {i : ℤ}
    (hu : untouched width height sel i) {x y : ℤ}
    (hx0 : 0 ≤ x) (hx1 : x < width) (hy0 : 0 ≤ y) (hy1 : y < height)
    (hin : isInsideSelection x y sel = true)
    (orig res : Buf) (bank : List TextureSample) (margin : ℤ)
    (wfn : ℤ → ℤ → ℚ) (layer : ℤ) (u1 u2 : ℚ) :
    bufGet (fillPixel orig res bank width height sel margin wfn layer x y u1 u2) i
      = bufGet res i := by
  simp only [fillPixel]
  split
  · exact bufGet_write3 hu hx0 hx1 hy0 hy1 hin _ _ _ _
  · rfl

lemma prefillStage_frame {width height : ℤ} {sel : Selection} {i : ℤ}
    (hu : untouched width height sel i) (avgR avgG avgB : ℤ) (buf : Buf) :
    bufGet (prefillStage width height sel avgR avgG avgB buf) i
      = bufGet buf i := by
  unfold prefillStage
  refine foldl_preserve (fun b => bufGet b i = bufGet buf i) _ _ _ ?_ rfl
  intro b p hp hb
  dsimp only
  split
  · rename_i hg
    exact (bufGet_write3 hu hg.1 hg.2.1 hg.2.2.1 hg.2.2.2
      (inside_of_mem_selBox hp) b _ _ _).trans hb
  · exact hb

lemma fillLayer_frame {width height : ℤ} {sel : Selection} {i : ℤ}
    (hu : untouched width height sel i) (orig : Buf)
    (bank : List TextureSample) (margin : ℤ) (wfn : ℤ → ℤ → ℚ)
    (rand : ℕ → ℚ) (layer : ℤ) (st : PipeState) :
    bufGet (fillLayer orig bank width height sel margin wfn rand layer st).buf i
      = bufGet st.buf i := by
  unfold fillLayer
  refine foldl_preserve (fun s : PipeState => bufGet s.buf i = bufGet st.buf i) _ _ _ ?_ rfl
  intro s p hp hb
  dsimp only
  split
  · exact hb
  · split
    · exact hb
    · rename_i hg
      rw [mem_boxList] at hp
      refine (fillPixel_frame hu (by omega) (by omega) (by omega) (by omega)
        (inside_of_local hp.1 hp.2.1 hp.2.2.1 hp.2.2.2) orig s.buf bank margin
        wfn layer _ _).trans hb

lemma fillStage_frame {width height : ℤ} {sel : Selection} {i : ℤ}
    (hu : untouched width height sel i) (orig : Buf)
    (bank : List TextureSample) (margin : ℤ) (wfn : ℤ → ℤ → ℚ)
    (rand : ℕ → ℚ) (hasProgress : Bool) (maxDist : ℤ) (st : PipeState) :
    bufGet (fillStage orig bank width height sel margin wfn rand hasProgress
        maxDist st).buf i
      = bufGet st.buf i := by
  unfold fillStage
  refine foldl_preserve (fun s : PipeState => bufGet s.buf i = bufGet st.buf i) _ _ _ ?_ rfl
  intro s layer _ hb
  dsimp only
  split
  · exact (fillLayer_frame hu orig bank margin wfn rand layer s).trans hb
  · exact (fillLayer_frame hu orig bank margin wfn rand layer s).trans hb

lemma smoothPixel_frame {width height : ℤ} {sel : Selection} {i : ℤ}
    (hu : untouched width height sel i) {x y : ℤ}
    (hx0 : 0 ≤ x) (hx1 : x < width) (hy0 : 0 ≤ y) (hy1 : y < height)
    (hin : isInsideSelection x y sel = true) (temp res : Buf) :
    bufGet (smoothPixel temp width height x y res) i = bufGet res i := by
  simp only [smoothPixel]
  split
  · exact bufGet_write3 hu hx0 hx1 hy0 hy1 hin _ _ _ _
  · rfl

lemma smoothPass_frame {width height : ℤ} {sel : Selection} {i : ℤ}
    (hu : untouched width height sel i) (res : Buf) :
    bufGet (smoothPass width height sel res) i = bufGet res i := by
  unfold smoothPass
  refine foldl_preserve (fun b => bufGet b i = bufGet res i) _ _ _ ?_ rfl
  intro b p hp hb
  dsimp only
  split
  · exact hb
  · rename_i hg
    exact (smoothPixel_frame hu (by omega) (by omega) (by omega) (by omega)
      (inside_of_mem_selBox hp) res b).trans hb

lemma smoothStage_frame {width height : ℤ} {sel : Selection} {i : ℤ}
    (hu : untouched width height sel i) (passes : ℕ) (hasProgress : Bool)
    (st : PipeState) :
    bufGet (smoothStage width height sel passes hasProgress st).buf i
      = bufGet st.buf i := by
  unfold smoothStage
  refine foldl_preserve (fun s : PipeState => bufGet s.buf i = bufGet st.buf i) _ _ _ ?_ rfl
  intro s pass _ hb
  dsimp only
  split
  · exact (smoothPass_frame hu s.buf).trans hb
  · exact (smoothPass_frame hu s.buf).trans hb

lemma featherPixel_frame {width height : ℤ} {sel : Selection} {i : ℤ}
    (hu : untouched width height sel i) {x y : ℤ}
    (hx0 : 0 ≤ x) (hx1 : x < width) (hy0 : 0 ≤ y) (hy1 : y < height)
    (hin : isInsideSelection x y sel = true) (orig res : Buf) :
    bufGet (featherPixel orig width height sel x y res) i = bufGet res i := by
  simp only [featherPixel]
  split
  · exact bufGet_write3 hu hx0 hx1 hy0 hy1 hin _ _ _ _
  · rfl

lemma featherStage_frame {width height : ℤ} {sel : Selection} {i : ℤ}
    (hu : untouched width height sel i) (orig res : Buf) :
    bufGet (featherStage orig width height sel res) i = bufGet res i := by
  unfold featherStage
  refine foldl_preserve (fun b => bufGet b i = bufGet res i) _ _ _ ?_ rfl
  intro b p hp hb
  dsimp only
  split
  · exact hb
  · rename_i hg
    exact (featherPixel_frame hu (by omega) (by omega) (by omega) (by omega)
      (inside_of_mem_selBox hp) orig b).trans hb

lemma grainPixel_frame {width height : ℤ} {sel : Selection} {i : ℤ}
    (hu : untouched width height sel i) {x y : ℤ}
    (hx0 : 0 ≤ x) (hx1 : x < width) (hy0 : 0 ≤ y) (hy1 : y < height)
    (hin : isInsideSelection x y sel = true) (g u : ℚ) (buf : Buf) :
    bufGet (grainPixel width g u x y buf) i = bufGet buf i := by
  simp only [grainPixel]
  exact bufGet_write3 hu hx0 hx1 hy0 hy1 hin _ _ _ _

lemma grainStage_frame {width height : ℤ} {sel : Selection} {i : ℤ}
    (hu : untouched width height sel i) (g : ℚ) (rand : ℕ → ℚ)
    (st : PipeState) :
    bufGet (grainStage width height sel g rand st).buf i = bufGet st.buf i := by
  unfold grainStage
  refine foldl_preserve (fun s : PipeState => bufGet s.buf i = bufGet st.buf i) _ _ _ ?_ rfl
  intro s p hp hb
  dsimp only
  split
  · exact hb
  · rename_i hg
    exact (grainPixel_frame hu (by omega) (by omega) (by omega) (by omega)
      (inside_of_mem_selBox hp) g _ s.buf).trans hb

/-- A trailing progress-report record update never changes the buffer. -/
lemma ite_prog_buf (c : Prop) [Decidable c] (st : PipeState) (p : List ℚ) :
    (if c then { st with prog := p } else st).buf = st.buf := by
  split <;> rfl

/-- The whole pipeline never changes a buffer index avoiding all written
channels. -/
lemma inpaint_buf_frame {imageData : ImageData} {selection : Selection}
    {opts : ProcessingOptions} {hasProgress : Bool} {rand : ℕ → ℚ}
    {wfn : ℤ → ℤ → ℚ} {i : ℤ}
    (hu : untouched imageData.width imageData.height
      (clampSelection selection imageData.width imageData.height) i) :
    bufGet (inpaintWatermark imageData selection opts hasProgress rand
        wfn).imageData.data i
      = bufGet imageData.data i := by
  simp only [inpaintWatermark]
  split
  · rfl
  · split
    · rfl
    · rw [ite_prog_buf]
      rw [grainStage_frame hu]
      dsimp only
      rw [featherStage_frame hu]
      rw [ite_prog_buf]
      rw [smoothStage_frame hu]
      rw [ite_prog_buf]
      rw [fillStage_frame hu]
      dsimp only
      rw [prefillStage_frame hu]

/-- C1: every in-image pixel strictly outside the clamped selection keeps
its RGB channels exactly: all five stages write only channels 0..2 of
pixels inside the clamped selection rectangle. -/
theorem inpaint_outside_rgb_unchanged (imageData : ImageData)
    (selection : Selection) (opts : ProcessingOptions) (hasProgress : Bool)
    (rand : ℕ → ℚ) (wfn : ℤ → ℤ → ℚ) {x y c : ℤ}
    (hx0 : 0 ≤ x) (hx1 : x < imageData.width)
    (hy0 : 0 ≤ y) (hy1 : y < imageData.height)
    (hout : isInsideSelection x y
      (clampSelection selection imageData.width imageData.height) = false)
    (hc : c = 0 ∨ c = 1 ∨ c = 2) :
    bufGet (inpaintWatermark imageData selection opts hasProgress rand
        wfn).imageData.data (pixIdx imageData.width x y c)
      = bufGet imageData.data (pixIdx imageData.width x y c) := by
  apply inpaint_buf_frame
  intro x' y' c' hx0' hx1' hy0' hy1' hin' hc0' hc1' heq
  obtain ⟨ex, ey, _⟩ := pixIdx_inj hx0 hx1 hx0' hx1' (by omega) (by omega)
    hc0' (by omega) heq
  rw [← ex, ← ey] at hin'
  rw [hout] at hin'
  exact Bool.false_ne_true hin'

/-- C1 witness: 3×2 image, selection covering the top row; the pixel
(0,1) below it keeps its red channel. -/
theorem inpaint_outside_rgb_unchanged_witness :
    bufGet (inpaintWatermark
        ⟨3, 2, (List.replicate 6 [(10 : ℚ), 10, 10, 255]).flatten⟩
        ⟨0, 0, 3, 1⟩ ⟨true, 1, 1, 2, 1 / 5⟩ true (fun _ => 0)
        (fun _ _ => 1)).imageData.data (pixIdx 3 0 1 0)
      = bufGet ((List.replicate 6 [(10 : ℚ), 10, 10, 255]).flatten)
        (pixIdx 3 0 1 0) :=
  inpaint_outside_rgb_unchanged
    ⟨3, 2, (List.replicate 6 [(10 : ℚ), 10, 10, 255]).flatten⟩
    ⟨0, 0, 3, 1⟩ ⟨true, 1, 1, 2, 1 / 5⟩ true (fun _ => 0) (fun _ _ => 1)
    (by decide) (by decide) (by decide) (by decide) (by decide)
    (Or.inl rfl)

/-- C2: the alpha channel (channel 3) of every in-image pixel is
unchanged by the whole pipeline: no stage ever writes channel 3. -/
theorem inpaint_alpha_unchanged (imageData : ImageData)
    (selection : Selection) (opts : ProcessingOptions) (hasProgress : Bool)
    (rand : ℕ → ℚ) (wfn : ℤ → ℤ → ℚ) {x y : ℤ}
    (hx0 : 0 ≤ x) (hx1 : x < imageData.width)
    (hy0 : 0 ≤ y) (hy1 : y < imageData.height) :
    bufGet (inpaintWatermark imageData selection opts hasProgress rand
        wfn).imageData.data (pixIdx imageData.width x y 3)
      = bufGet imageData.data (pixIdx imageData.width x y 3) := by
  apply inpaint_buf_frame
  intro x' y' c' hx0' hx1' hy0' hy1' hin' hc0' hc1' heq
  obtain ⟨_, _, ec⟩ := pixIdx_inj hx0 hx1 hx0' hx1' (by omega) (by omega)
    hc0' (by omega) heq
  omega

/-- C2 witness: alpha of the selection pixel (1,0) itself survives the
run. -/
theorem inpaint_alpha_unchanged_witness :
    bufGet (inpaintWatermark
        ⟨3, 2, (List.replicate 6 [(10 : ℚ), 10, 10, 255]).flatten⟩
        ⟨0, 0, 3, 1⟩ ⟨true, 1, 1, 2, 1 / 5⟩ true (fun _ => 0)
        (fun _ _ => 1)).imageData.data (pixIdx 3 1 0 3)
      = bufGet ((List.replicate 6 [(10 : ℚ), 10, 10, 255]).flatten)
        (pixIdx 3 1 0 3) :=
  inpaint_alpha_unchanged
    ⟨3, 2, (List.replicate 6 [(10 : ℚ), 10, 10, 255]).flatten⟩
    ⟨0, 0, 3, 1⟩ ⟨true, 1, 1, 2, 1 / 5⟩ true (fun _ => 0) (fun _ _ => 1)
    (by decide) (by decide) (by decide) (by decide)

/-- C3: with a degenerate clamped selection (non-positive width or
height) or an empty texture bank, inpaintWatermark returns the input
image unaltered (and, being a total function, never raises); no status
flag distinguishes this from the processed case. -/
theorem inpaint_noop_on_degenerate_or_empty_bank (imageData : ImageData)
    (selection : Selection) (opts : ProcessingOptions) (hasProgress : Bool)
    (rand : ℕ → ℚ) (wfn : ℤ → ℤ → ℚ)
    (h : (clampSelection selection imageData.width imageData.height).width ≤ 0 ∨
      (clampSelection selection imageData.width imageData.height).height ≤ 0 ∨
      buildTextureBank imageData
        (clampSelection selection imageData.width imageData.height)
        opts.margin = []) :
    (inpaintWatermark imageData selection opts hasProgress rand
      wfn).imageData = imageData := by
  simp only [inpaintWatermark]
  rcases h with h | h | h
  · rw [if_pos (Or.inl h)]
  · rw [if_pos (Or.inr h)]
  · split
    · rfl
    · rw [if_pos (by rw [h]; rfl)]

/-- C3 witness: a zero-area selection on a 2×2 image is returned
unaltered, and so is a full-image selection with margin 0 (empty
bank). -/
theorem inpaint_noop_witness :
    (inpaintWatermark ⟨2, 2, List.replicate 16 (0 : ℚ)⟩ ⟨0, 0, 0, 0⟩
        ⟨true, 8, 50, 2, 1 / 5⟩ false (fun _ => 0) (fun _ _ => 1)).imageData
        = ⟨2, 2, List.replicate 16 (0 : ℚ)⟩ ∧
      (inpaintWatermark ⟨2, 2, List.replicate 16 (0 : ℚ)⟩ ⟨0, 0, 2, 2⟩
        ⟨true, 8, 0, 2, 1 / 5⟩ false (fun _ => 0) (fun _ _ => 1)).imageData
        = ⟨2, 2, List.replicate 16 (0 : ℚ)⟩ :=
  ⟨inpaint_noop_on_degenerate_or_empty_bank _ _ _ _ _ _ (by decide),
    inpaint_noop_on_degenerate_or_empty_bank _ _ _ _ _ _
      (Or.inr (Or.inr (by decide)))⟩

/-- C5: the neighbor gather of the fill stage at layer L (radius
min(10, margin)) depends only on original-buffer values at pixels outside
the selection and on result-buffer values at selection pixels with
distance-map value strictly below L; neighbors at distance ≥ L contribute
nothing, so no pixel ever reads an unfinished value. -/
theorem gather_reads_only_outside_or_finalized
    (width height : ℤ) (sel : Selection) (margin : ℤ) (wfn : ℤ → ℤ → ℚ)
    (layer x y : ℤ) (orig orig' res res' : Buf)
    (hOut : ∀ x' y' : ℤ, 0 ≤ x' → x' < width → 0 ≤ y' → y' < height →
      isInsideSelection x' y' sel = false →
      ∀ c : ℤ, 0 ≤ c → c < 3 →
        bufGet orig (pixIdx width x' y' c) = bufGet orig' (pixIdx width x' y' c))
    (hFin : ∀ x' y' : ℤ, 0 ≤ x' → x' < width → 0 ≤ y' → y' < height →
      isInsideSelection x' y' sel = true →
      distAt sel (x' - sel.x) (y' - sel.y) < layer →
      ∀ c : ℤ, 0 ≤ c → c < 3 →
        bufGet res (pixIdx width x' y' c) = bufGet res' (pixIdx width x' y' c)) :
    gatherNeighbors orig res width height sel layer (min 10 margin) wfn x y =
      gatherNeighbors orig' res' width height sel layer (min 10 margin) wfn x y := by
  unfold gatherNeighbors
  apply foldl_ext
  intro acc d _
  simp only [gatherStep]
  split
  · rfl
  · rename_i hImg
    split
    · rfl
    · cases hIn : isInsideSelection (x + d.1) (y + d.2) sel
      · have hb := hOut (x + d.1) (y + d.2) (by omega) (by omega) (by omega)
          (by omega) hIn
        simp only [hIn, Bool.not_false, if_true, pixIdx_zero_add]
        rw [if_neg (by simp), if_neg (by simp)]
        rw [hb 0 (by omega) (by omega), hb 1 (by omega) (by omega),
          hb 2 (by omega) (by omega)]
      · have hb := hFin (x + d.1) (y + d.2) (by omega) (by omega) (by omega)
          (by omega) hIn
        simp only [hIn, Bool.not_true, Bool.false_eq_true, if_false,
          eq_self_iff_true, true_and, pixIdx_zero_add]
        split
        · rfl
        · rename_i hge
          rw [hb (by omega) 0 (by omega) (by omega),
            hb (by omega) 1 (by omega) (by omega),
            hb (by omega) 2 (by omega) (by omega)]

/-- C5 witness: at layer 0 on a 3×3 image with the 1×1 selection at (1,1),
the gather is identical for two result buffers that disagree everywhere
(no selection pixel has distance below 0, so the result buffer is never
read). -/
theorem gather_reads_only_outside_or_finalized_witness :
    gatherNeighbors (List.replicate 36 (5 : ℚ)) (List.replicate 36 (0 : ℚ))
        3 3 ⟨1, 1, 1, 1⟩ 0 (min 10 1) (fun _ _ => 1) 1 1 =
      gatherNeighbors (List.replicate 36 (5 : ℚ)) (List.replicate 36 (7 : ℚ))
        3 3 ⟨1, 1, 1, 1⟩ 0 (min 10 1) (fun _ _ => 1) 1 1 :=
  gather_reads_only_outside_or_finalized 3 3 ⟨1, 1, 1, 1⟩ 1 (fun _ _ => 1)
    0 1 1 _ _ _ _
    (fun _ _ _ _ _ _ _ _ _ _ => rfl)
    (fun x' y' _ _ _ _ hin hd _ _ _ => by
      exfalso
      simp only [isInsideSelection, decide_eq_true_eq] at hin
      have ex : x' = 1 := by omega
      have ey : y' = 1 := by omega
      subst ex; subst ey
      simp only [distAt] at hd
      omega)

/-- C9: autoDetectWatermark returns exactly the rectangle
(max 0 (w−200), max 0 (h−80), min 180 w, min 60 h); in particular a
400×300 image yields (200, 220, 180, 60). -/
theorem autoDetectWatermark_spec :
    (∀ width height : ℤ, autoDetectWatermark width height =
      ⟨max 0 (width - 200), max 0 (height - 80),
       min 180 width, min 60 height⟩) ∧
    autoDetectWatermark 400 300 = ⟨200, 220, 180, 60⟩ :=
  ⟨fun _ _ => rfl, by decide⟩

/-- C4 counterexample: for the caller rectangle (−5, 0, 20, 1) on a 10×1
image, the clamped selection is (0, 0, 15, 1): it passes the degeneracy
guard (width and height positive) yet violates x + width ≤ imageWidth,
so the pipeline proceeds with an invariant-breaking selection. -/
theorem clampSelection_invariant_counterexample :
    ¬((clampSelection ⟨-5, 0, 20, 1⟩ 10 1).width ≤ 0 ∨
        (clampSelection ⟨-5, 0, 20, 1⟩ 10 1).height ≤ 0) ∧
      ¬((clampSelection ⟨-5, 0, 20, 1⟩ 10 1).x +
          (clampSelection ⟨-5, 0, 20, 1⟩ 10 1).width ≤ 10) := by
  decide

/-- C4 amended: for caller rectangles with non-negative x and y, a clamped
selection that passes the degeneracy guard satisfies the full invariant
0 ≤ x, 0 ≤ y, x+width ≤ imageWidth, y+height ≤ imageHeight, width > 0,
height > 0.  (Rectangles with negative x or y can escape the right/bottom
bound, as the counterexample shows.) -/
theorem clampSelection_invariant (selection : Selection) (width height : ℤ)
    (hx : 0 ≤ selection.x) (hy : 0 ≤ selection.y)
    (hnd : ¬((clampSelection selection width height).width ≤ 0 ∨
        (clampSelection selection width height).height ≤ 0)) :
    0 ≤ (clampSelection selection width height).x ∧
      0 ≤ (clampSelection selection width height).y ∧
      (clampSelection selection width height).x +
          (clampSelection selection width height).width ≤ width ∧
      (clampSelection selection width height).y +
          (clampSelection selection width height).height ≤ height ∧
      0 < (clampSelection selection width height).width ∧
      0 < (clampSelection selection width height).height := by
  obtain ⟨sx, sy, sw, sh⟩ := selection
  simp only [clampSelection] at *
  omega

/-- Witness for the amended C4 at the rectangle (2,1,5,5) on a 4×4
image. -/
theorem clampSelection_invariant_witness :
    0 ≤ (clampSelection ⟨2, 1, 5, 5⟩ 4 4).x ∧
      0 ≤ (clampSelection ⟨2, 1, 5, 5⟩ 4 4).y ∧
      (clampSelection ⟨2, 1, 5, 5⟩ 4 4).x +
          (clampSelection ⟨2, 1, 5, 5⟩ 4 4).width ≤ 4 ∧
      (clampSelection ⟨2, 1, 5, 5⟩ 4 4).y +
          (clampSelection ⟨2, 1, 5, 5⟩ 4 4).height ≤ 4 ∧
      0 < (clampSelection ⟨2, 1, 5, 5⟩ 4 4).width ∧
      0 < (clampSelection ⟨2, 1, 5, 5⟩ 4 4).height :=
  clampSelection_invariant ⟨2, 1, 5, 5⟩ 4 4 (by decide) (by decide) (by decide)

/-- C6: buildTextureBank is exactly the row-major scan of the
margin-expanded, image-clipped bounding box, filtered to the pixels
outside the selection, each read as its (r,g,b); in particular no sample
comes from a pixel inside the selection. -/
theorem buildTextureBank_eq_filter_map (imageData : ImageData)
    (selection : Selection) (margin : ℤ) :
    buildTextureBank imageData selection margin =
      ((boxList (max 0 (selection.x - margin))
            (min imageData.width (selection.x + selection.width + margin))
            (max 0 (selection.y - margin))
            (min imageData.height (selection.y + selection.height + margin))).filter
          (fun p => !isInsideSelection p.1 p.2 selection)).map
        (fun p =>
          ⟨bufGet imageData.data (pixIdx imageData.width p.1 p.2 0),
           bufGet imageData.data (pixIdx imageData.width p.1 p.2 1),
           bufGet imageData.data (pixIdx imageData.width p.1 p.2 2)⟩) := by
  unfold buildTextureBank
  rw [foldl_ext _
    (fun bank p =>
      if (!isInsideSelection p.1 p.2 selection) = true then
        bank ++ [(⟨bufGet imageData.data (pixIdx imageData.width p.1 p.2 0),
                   bufGet imageData.data (pixIdx imageData.width p.1 p.2 1),
                   bufGet imageData.data (pixIdx imageData.width p.1 p.2 2)⟩ :
                    TextureSample)]
      else bank)]
  · exact (foldl_append_filter
      (fun p : ℤ × ℤ => !isInsideSelection p.1 p.2 selection)
      (fun p : ℤ × ℤ =>
        (⟨bufGet imageData.data (pixIdx imageData.width p.1 p.2 0),
          bufGet imageData.data (pixIdx imageData.width p.1 p.2 1),
          bufGet imageData.data (pixIdx imageData.width p.1 p.2 2)⟩ :
            TextureSample)) _ []).trans (by simp)
  · intro bank p _
    rcases p with ⟨px, py⟩
    by_cases h : px < selection.x ∨ px ≥ selection.x + selection.width ∨
        py < selection.y ∨ py ≥ selection.y + selection.height
    · rw [if_pos h, if_pos ((outside_iff_not_inside px py selection).mp h)]
    · rw [if_neg h,
        if_neg (fun hb => h ((outside_iff_not_inside px py selection).mpr hb))]

/-- The grain stage as the specification's sentence literally reads: an
independent uniform draw for each RGB channel of each pixel (three draws
per pixel).  Written only to compare against grainStage, which draws once
per pixel. -/
def grainStageSpecIndependent (width height : ℤ) (sel : Selection)
    (grainStrength : ℚ) (rand : ℕ → ℚ) (st : PipeState) : PipeState :=
  (boxList sel.x (sel.x + sel.width) sel.y (sel.y + sel.height)).foldl
    (fun st p =>
      if p.1 < 0 ∨ p.1 ≥ width ∨ p.2 < 0 ∨ p.2 ≥ height then st
      else
        let idx := pixIdx width p.1 p.2 0
        let n0 := (rand st.draws - 1 / 2) * grainStrength * 2
        let n1 := (rand (st.draws + 1) - 1 / 2) * grainStrength * 2
        let n2 := (rand (st.draws + 2) - 1 / 2) * grainStrength * 2
        let b0 := setPix st.buf idx (max 0 (min 255 (bufGet st.buf idx + n0)))
        let b1 := setPix b0 (idx + 1)
          (max 0 (min 255 (bufGet b0 (idx + 1) + n1)))
        ⟨setPix b1 (idx + 2) (max 0 (min 255 (bufGet b1 (idx + 2) + n2))),
          st.draws + 3, st.prog⟩)
    st

/-- C7 counterexample: on a 1×1 image with the stream 0, 1/2, 1/2, ... the
source's grain stage adds the single draw's noise −2 to all three channels
(⟨98,98,98⟩), while independent per-channel draws would give
⟨98,100,100⟩: the noise is not independent per channel. -/
theorem grain_independent_counterexample :
    (grainStage 1 1 ⟨0, 0, 1, 1⟩ 2 (fun k => if k = 0 then 0 else 1 / 2)
        ⟨[100, 100, 100, 255], 0, []⟩).buf ≠
      (grainStageSpecIndependent 1 1 ⟨0, 0, 1, 1⟩ 2
        (fun k => if k = 0 then 0 else 1 / 2)
        ⟨[100, 100, 100, 255], 0, []⟩).buf := by
  with_unfolding_all decide

/-- C7 amended: each grain pixel draws one noise value
(u − 0.5)·grainStrength·2 and adds that same value to all three RGB
channels, each read from the pre-grain buffer and clamped to [0,255]; for
a draw u ∈ [0,1) and grainStrength ≥ 0 the noise lies in
[−grainStrength, grainStrength]. -/
theorem grainPixel_shared_noise (width : ℤ) (g u : ℚ) (x y : ℤ) (buf : Buf)
    (hu0 : 0 ≤ u) (hu1 : u < 1) (hg : 0 ≤ g) :
    grainPixel width g u x y buf =
      setPix (setPix (setPix buf (pixIdx width x y 0)
          (max 0 (min 255
            (bufGet buf (pixIdx width x y 0) + (u - 1 / 2) * g * 2))))
        (pixIdx width x y 0 + 1)
          (max 0 (min 255
            (bufGet buf (pixIdx width x y 0 + 1) + (u - 1 / 2) * g * 2))))
        (pixIdx width x y 0 + 2)
          (max 0 (min 255
            (bufGet buf (pixIdx width x y 0 + 2) + (u - 1 / 2) * g * 2))) ∧
      -g ≤ (u - 1 / 2) * g * 2 ∧ (u - 1 / 2) * g * 2 ≤ g := by
  refine ⟨?_, ?_, ?_⟩
  · simp only [grainPixel]
    rw [bufGet_setPix_ne, bufGet_setPix_ne, bufGet_setPix_ne]
    · omega
    · omega
    · omega
  · nlinarith [mul_nonneg hg hu0]
  · nlinarith [mul_nonneg hg (by linarith : (0 : ℚ) ≤ 1 - u)]

/-- Witness for the amended C7 at width 1, grainStrength 2, draw 0 on the
buffer [100,100,100,255]: all three channels drop by the same noise −2. -/
theorem grainPixel_shared_noise_witness :
    grainPixel 1 2 0 0 0 [100, 100, 100, 255] = [98, 98, 98, 255] ∧
      -(2 : ℚ) ≤ ((0 : ℚ) - 1 / 2) * 2 * 2 ∧
      ((0 : ℚ) - 1 / 2) * 2 * 2 ≤ 2 :=
  ⟨((grainPixel_shared_noise 1 2 0 0 0 [100, 100, 100, 255] (by norm_num)
      (by norm_num) (by norm_num)).1).trans (by with_unfolding_all decide),
    (grainPixel_shared_noise 1 2 0 0 0 [100, 100, 100, 255] (by norm_num)
      (by norm_num) (by norm_num)).2.1,
    (grainPixel_shared_noise 1 2 0 0 0 [100, 100, 100, 255] (by norm_num)
      (by norm_num) (by norm_num)).2.2⟩

/-- fillLayer never reports progress (only fillStage does). -/
lemma fillLayer_prog (orig : Buf) (bank : List TextureSample)
    (width height : ℤ) (sel : Selection) (margin : ℤ) (wfn : ℤ → ℤ → ℚ)
    (rand : ℕ → ℚ) (layer : ℤ) (st : PipeState) :
    (fillLayer orig bank width height sel margin wfn rand layer st).prog
      = st.prog := by
  unfold fillLayer
  refine foldl_preserve (fun s : PipeState => s.prog = st.prog) _ _ _ ?_ rfl
  intro s p _ hs
  dsimp only
  split
  · exact hs
  · split
    · exact hs
    · exact hs

/-- C8 amended: when the distance-field maximum is 0 (a 1-pixel-thin
selection), the fill stage emits no per-layer progress report at all —
the maxDist > 0 guard suppresses the report (and with it the would-be
division by zero).  In particular it does not report the sub-range's
upper bound 70; the next report is the post-fill 75. -/
theorem fillStage_no_report_when_flat (orig : Buf)
    (bank : List TextureSample) (width height : ℤ) (sel : Selection)
    (margin : ℤ) (wfn : ℤ → ℤ → ℚ) (rand : ℕ → ℚ) (hasProgress : Bool)
    (st : PipeState) (h : maxDistOf sel = 0) :
    (fillStage orig bank width height sel margin wfn rand hasProgress
        (maxDistOf sel) st).prog = st.prog := by
  rw [h]
  unfold fillStage
  have hrange : intRange 0 (0 + 1) = [0] := by decide
  rw [hrange]
  simp only [List.foldl_cons, List.foldl_nil]
  rw [if_neg (by simp)]
  exact fillLayer_prog orig bank width height sel margin wfn rand 0 st

/-- Witness for the amended C8: the thin selection (0,0,3,1) has
maxDist 0 and the fill stage leaves the report list [20] untouched. -/
theorem fillStage_no_report_when_flat_witness :
    (fillStage [] [] 3 2 ⟨0, 0, 3, 1⟩ 1 (fun _ _ => 1) (fun _ => 0) true
      (maxDistOf ⟨0, 0, 3, 1⟩) ⟨[], 0, [20]⟩).prog = [20] :=
  fillStage_no_report_when_flat [] [] 3 2 ⟨0, 0, 3, 1⟩ 1 (fun _ _ => 1)
    (fun _ => 0) true ⟨[], 0, [20]⟩ (by decide)

/-- C8 counterexample: a full run on a 3×2 image with the 1-pixel-thin
selection (0,0,3,1) (clamped distance-field maximum 0) and a progress
sink reports exactly [20, 75, 92, 100]: the fill stage never reports the
sub-range's upper bound 70 — it skips the report instead. -/
theorem fill_progress_flat_counterexample :
    maxDistOf (clampSelection ⟨0, 0, 3, 1⟩ 3 2) = 0 ∧
      (inpaintWatermark
          ⟨3, 2, (List.replicate 6 [(10 : ℚ), 10, 10, 255]).flatten⟩
          ⟨0, 0, 3, 1⟩ ⟨true, 0, 1, 2, 1 / 5⟩ true (fun _ => 0)
          (fun _ _ => 1)).prog = [20, 75, 92, 100] ∧
      (70 : ℚ) ∉ (inpaintWatermark
          ⟨3, 2, (List.replicate 6 [(10 : ℚ), 10, 10, 255]).flatten⟩
          ⟨0, 0, 3, 1⟩ ⟨true, 0, 1, 2, 1 / 5⟩ true (fun _ => 0)
          (fun _ _ => 1)).prog := by
  decide

/-- When the whole feather window misses the exterior, the
nearest-exterior search returns the pixel's own original color. -/
lemma featherNearest_fallback (orig : Buf) (width height : ℤ)
    (sel : Selection) (x y : ℤ)
    (hwin : ∀ p ∈ windowOffsets (4 : ℤ),
      x + p.1 < 0 ∨ x + p.1 ≥ width ∨ y + p.2 < 0 ∨ y + p.2 ≥ height ∨
        isInsideSelection (x + p.1) (y + p.2) sel = true) :
    featherNearest orig width height sel x y =
      (bufGet orig (pixIdx width x y 0), bufGet orig (pixIdx width x y 0 + 1),
        bufGet orig (pixIdx width x y 0 + 2)) := by
  simp only [featherNearest]
  have hfold : (windowOffsets (4 : ℤ)).foldl
      (featherScanStep orig width height sel x y)
      (bufGet orig (pixIdx width x y 0), bufGet orig (pixIdx width x y 0 + 1),
        bufGet orig (pixIdx width x y 0 + 2), none) =
      (bufGet orig (pixIdx width x y 0), bufGet orig (pixIdx width x y 0 + 1),
        bufGet orig (pixIdx width x y 0 + 2), none) := by
    refine foldl_preserve
      (fun a : ℚ × ℚ × ℚ × Option ℤ =>
        a = (bufGet orig (pixIdx width x y 0),
          bufGet orig (pixIdx width x y 0 + 1),
          bufGet orig (pixIdx width x y 0 + 2), none)) _ _ _ ?_ rfl
    intro a p hp ha
    simp only [featherScanStep]
    split
    · exact ha
    · split
      · exact ha
      · rename_i hImg hIns
        rcases hwin p hp with h | h | h | h | h
        · exact absurd (Or.inl h) hImg
        · exact absurd (Or.inr (Or.inl h)) hImg
        · exact absurd (Or.inr (Or.inr (Or.inl h))) hImg
        · exact absurd (Or.inr (Or.inr (Or.inr h))) hImg
        · exact absurd h (by simpa using hIns)
  rw [hfold]

/-- C10: for a feather-band pixel (distance-map value below 4) whose 9×9
window contains no in-image pixel outside the selection, the blend target
defaults to the pixel's own original pre-inpainting color: the output is
the blend of the synthesized value with the pixel's own original color. -/
theorem featherPixel_fallback_own_color (orig res : Buf) (width height : ℤ)
    (sel : Selection) (x y : ℤ)
    (hd : distAt sel (x - sel.x) (y - sel.y) < 4)
    (hwin : ∀ p ∈ windowOffsets (4 : ℤ),
      x + p.1 < 0 ∨ x + p.1 ≥ width ∨ y + p.2 < 0 ∨ y + p.2 ≥ height ∨
        isInsideSelection (x + p.1) (y + p.2) sel = true) :
    featherPixel orig width height sel x y res =
      setPix (setPix (setPix res (pixIdx width x y 0)
          ((jsRound (bufGet res (pixIdx width x y 0) *
              ((distAt sel (x - sel.x) (y - sel.y) : ℚ) / 4) +
            bufGet orig (pixIdx width x y 0) *
              (1 - (distAt sel (x - sel.x) (y - sel.y) : ℚ) / 4)) : ℤ) : ℚ))
        (pixIdx width x y 0 + 1)
          ((jsRound (bufGet res (pixIdx width x y 0 + 1) *
              ((distAt sel (x - sel.x) (y - sel.y) : ℚ) / 4) +
            bufGet orig (pixIdx width x y 0 + 1) *
              (1 - (distAt sel (x - sel.x) (y - sel.y) : ℚ) / 4)) : ℤ) : ℚ))
        (pixIdx width x y 0 + 2)
          ((jsRound (bufGet res (pixIdx width x y 0 + 2) *
              ((distAt sel (x - sel.x) (y - sel.y) : ℚ) / 4) +
            bufGet orig (pixIdx width x y 0 + 2) *
              (1 - (distAt sel (x - sel.x) (y - sel.y) : ℚ) / 4)) : ℤ) : ℚ) := by
  simp only [featherPixel]
  rw [if_pos hd]
  rw [featherNearest_fallback orig width height sel x y hwin]
  dsimp only
  rw [bufGet_setPix_ne, bufGet_setPix_ne, bufGet_setPix_ne]
  · omega
  · omega
  · omega

/-- C10 witness: a 3×3 image fully covered by the selection; the feather
window of the center pixel (1,1) sees no exterior pixel, so the output
there blends the synthesized 9 with the pixel's own original 5:
jsRound(9·(1/4) + 5·(3/4)) = 6 on every RGB channel. -/
theorem featherPixel_fallback_own_color_witness :
    featherPixel (List.replicate 36 (5 : ℚ)) 3 3 ⟨0, 0, 3, 3⟩ 1 1
        (List.replicate 36 (9 : ℚ)) =
      [9, 9, 9, 9, 9, 9, 9, 9, 9, 9, 9, 9, 9, 9, 9, 9,
        6, 6, 6, 9, 9, 9, 9, 9, 9, 9, 9, 9, 9, 9, 9, 9, 9, 9, 9, 9] :=
  (featherPixel_fallback_own_color (List.replicate 36 (5 : ℚ))
    (List.replicate 36 (9 : ℚ)) 3 3 ⟨0, 0, 3, 3⟩ 1 1 (by decide)
    (by decide)).trans (by with_unfolding_all decide)

end WatermarkRemover
